import Mathlib

/-!
# air: the dispatch engine, the transport negotiator, the JWT gas and i18n

A shallow embedding of `server.go`, `i18n.go` and `gases/jwt.go`.

Conventions of the embedding.

* Go pointers are addresses (`Nat`); a pooled object is a pair of its address
  and its contents.  `nil` is `none`.
* Go strings are Lean strings read as sequences of bytes (one `Char` per
  byte), so `len`, `s[:i]` and `s[i:]` are `length`, `take` and `drop` on the
  character list.
* Function values held in mutable state (the gases of the engine, the error
  handler, the deferred functions of a response) are handles (`Nat`) that an
  environment `Env` interprets; a handler is a state transformer on the
  `World` it can reach, returning its Go `error`.
* Handlers, gases and callbacks are total: a Go panic inside user code is not
  modelled.  Applying a gas to its `next` handler has no effect of its own.
-/

namespace air

/-! ## Data model -/

/-- Go `error` values; `NewHTTPError` builds the `http` form. -/
inductive Error where
  | plain (msg : String)
  | http (code : Nat) (msg : String)
  deriving DecidableEq, Repr

/-- Body of a `*http.Request`: the original reader, or the `requestBody`
wrapper that `ServeHTTP` puts around it. -/
inductive Body where
  | std (id : Nat)
  | requestBody (r : Nat) (rc : Body)
  deriving DecidableEq, Repr

/-- The parts of a `*http.Request` that the engine reads or writes. -/
structure HTTPRequest where
  Host : String
  RequestURI : String
  Header : List (String × List String)
  Body : Body
  deriving DecidableEq, Repr

/-- The `responseWriter` that ties a `Response` to the platform writer. -/
structure responseWriter where
  r : Nat
  w : Nat
  deriving DecidableEq, Repr

/-- A Go `map[string]V`; a `nil` map is the empty list. -/
abbrev GoMap (V : Type) := List (String × V)

/-- Map index `m[k]` in its two-valued form `v, ok := m[k]`. -/
def GoMap.get {V : Type} (m : GoMap V) (k : String) : Option V :=
  match m with
  | [] => none
  | (k1, v) :: rest => if k1 = k then some v else GoMap.get rest k

/-- The closure that `i18n.localize` stores in `Request.localizedString`: it
captures the locale `l` matched for the request. -/
structure LocalizedString where
  l : GoMap String
  deriving DecidableEq, Repr

/-- A `*sync.Once`: whether it has fired. -/
structure Once where
  done : Bool
  deriving DecidableEq, Repr

/-- The pooled `Request` (the contents of the object; its address is kept
next to it). -/
structure Request where
  Air : Option Nat
  hr : Option HTTPRequest
  Header : List (String × List String)
  res : Option Nat
  params : List (String × String)
  routeParamNames : Option (List String)
  routeParamValues : Option (List String)
  parseRouteParamsOnce : Option Once
  parseOtherParamsOnce : Option Once
  localizedString : Option LocalizedString
  deriving DecidableEq, Repr

/-- The pooled `Response` (contents, as for `Request`). -/
structure Response where
  Air : Option Nat
  hrw : Option responseWriter
  Status : Int
  ContentLength : Int
  Written : Bool
  Minified : Bool
  Gzipped : Bool
  req : Option Nat
  ohrw : Option Nat
  servingContent : Bool
  serveContentError : Option Error
  reverseProxying : Bool
  deferredFuncs : List Nat
  deriving DecidableEq, Repr

/-- The fields of the engine `Air` that the three files use.  `Pregases`,
`Gases` and `ErrorHandler` hold handles of function values. -/
structure Air where
  addr : Nat
  Address : String
  DebugMode : Bool
  TLSCertFile : String
  TLSKeyFile : String
  ACMEEnabled : Bool
  ACMECertRoot : String
  ACMEDirectoryURL : String
  ACMEHostWhitelist : Option (List String)
  MaintainerEmail : String
  HTTPSEnforced : Bool
  HTTPSEnforcedPort : String
  LocaleBase : String
  Pregases : List Nat
  Gases : List Nat
  ErrorHandler : Nat
  deriving DecidableEq, Repr

/-- Effects of user code that an observer outside the exchange can see. -/
inductive Event where
  | enter (layer : Nat)
  | leave (layer : Nat)
  | handled
  deriving DecidableEq, Repr

/-- Everything a handler running in an exchange can reach: the engine, the
exchange's request and response, and the outside world. -/
structure World where
  a : Air
  req : Request
  res : Response
  log : List Event
  deriving DecidableEq, Repr

/-- A `Handler`: `func(*Request, *Response) error`. -/
abbrev Handler := World → Option Error × World

/-- A `Gas`: `func(Handler) Handler`. -/
abbrev Gas := Handler → Handler

/-- Interpretation of the function values and of the repository code that
`server.go` calls but does not define. -/
structure Env where
  gasOf : Nat → Gas
  funcOf : Nat → World → World
  errorHandlerOf : Nat → Error → World → World
  route : World → Handler × World
  SetHTTPRequest : Request → HTTPRequest → Request
  SetHTTPResponseWriter : Response → responseWriter → Response

/-! ## server.go: chaining -/

/-- The loop `for i := len(gs) - 1; i >= 0; i-- { h = gs[i](h) }`; the counter
is `i + 1`.  The index is always in range, the `none` arm is never taken. -/
def chainLoop (gasOf : Nat → Gas) (gs : List Nat) : Nat → Handler → Handler
  | 0, h => h
  | i + 1, h =>
    chainLoop gasOf gs i (match gs[i]? with
      | some g => gasOf g h
      | none => h)

/-- The closure `h` of `ServeHTTP` ("Chain the gases stack"): route, wrap the
routed handler in the gases as they stand now, run it. -/
def gasStage (env : Env) : Handler := fun w =>
  let routed := env.route w
  chainLoop env.gasOf routed.2.a.Gases routed.2.a.Gases.length routed.1 routed.2

/-- The handler after "Chain the pregases stack", built from the engine `a`. -/
def chain (env : Env) (a : Air) : Handler :=
  chainLoop env.gasOf a.Pregases a.Pregases.length (gasStage env)

/-- Nested application `g1(g2(...gm(h)...))`. -/
def nest (gasOf : Nat → Gas) (gs : List Nat) (h : Handler) : Handler :=
  gs.foldr (fun g k => gasOf g k) h

/-- A layer that wraps its call to `next`: it records its entry, may change
the engine, calls `next`, may change the engine again, records its exit and
passes the error of `next` on. -/
def wrapping (id : Nat) (before after : Air → Air) : Gas := fun next w =>
  let r := next { w with a := before w.a, log := w.log ++ [Event.enter id] }
  (r.1, { r.2 with a := after r.2.a, log := r.2.log ++ [Event.leave id] })

/-- A routed handler that records that it ran and returns `result`. -/
def terminal (result : Option Error) : Handler := fun w =>
  (result, { w with log := w.log ++ [Event.handled] })

/-- An environment in which every gas handle `id` is the wrapping layer `id`
and the router always yields `terminal result`. -/
def wrappingEnv (env : Env) (before after : Nat → Air → Air)
    (result : Option Error) : Env :=
  { env with
    gasOf := fun id => wrapping id (before id) (after id)
    route := fun w => (terminal result, w) }

/-- The ids of the layers entered, in order, as an outside observer reads them
off the log. -/
def layersEntered (log : List Event) : List Nat :=
  log.filterMap (fun e =>
    match e with
    | Event.enter id => some id
    | _ => none)

/-! ## server.go: ServeHTTP -/

/-- The `server`: the engine it points to, its two pools, the router's pool of
route parameter values, the next unused address and the outside world. -/
structure server where
  a : Air
  requestPool : List (Nat × Request)
  responsePool : List (Nat × Response)
  routeParamValuesPool : List (List String)
  fresh : Nat
  log : List Event
  deriving DecidableEq, Repr

/-- The zero value `Request{}`. -/
def Request.zero : Request :=
  { Air := none, hr := none, Header := [], res := none, params := [],
    routeParamNames := none, routeParamValues := none,
    parseRouteParamsOnce := none, parseOtherParamsOnce := none,
    localizedString := none }

/-- The zero value `Response{}`. -/
def Response.zero : Response :=
  { Air := none, hrw := none, Status := 0, ContentLength := 0, Written := false,
    Minified := false, Gzipped := false, req := none, ohrw := none,
    servingContent := false, serveContentError := none,
    reverseProxying := false, deferredFuncs := [] }

/-- `sync.Pool.Get`: the pool hands out one of the objects put into it, here the
one at position `k`, or the result of `New` when it has none there. -/
def poolGet {α : Type} (pool : List (Nat × α)) (k : Nat) (new : Nat × α) :
    (Nat × α) × List (Nat × α) :=
  match pool[k]? with
  | some x => (x, pool.eraseIdx k)
  | none => (new, pool)

/-- The pair of pooled objects an exchange works on, with their addresses. -/
structure Acquired where
  reqPtr : Nat
  req : Request
  resPtr : Nat
  res : Response
  requestPool : List (Nat × Request)
  responsePool : List (Nat × Response)
  deriving DecidableEq, Repr

/-- "Get request and response from the pool"; `kreq` and `kres` say which
pooled objects the two pools hand out. -/
def acquire (s : server) (kreq kres : Nat) : Acquired :=
  let rq := poolGet s.requestPool kreq (s.fresh, Request.zero)
  let rs := poolGet s.responsePool kres (s.fresh + 1, Response.zero)
  { reqPtr := rq.1.1, req := rq.1.2, resPtr := rs.1.1, res := rs.1.2,
    requestPool := rq.2, responsePool := rs.2 }

/-- "Tie the request body and the standard request body together". -/
def tieBody (reqPtr : Nat) (r : HTTPRequest) : HTTPRequest :=
  { r with Body := Body.requestBody reqPtr r.Body }

/-- "Reset the request". -/
def resetRequest (env : Env) (a : Air) (req : Request) (resPtr : Nat)
    (r : HTTPRequest) : Request :=
  let req := { req with Air := some a.addr }
  let req := env.SetHTTPRequest req r
  let req := { req with res := some resPtr }
  let req := { req with params := req.params.take 0 }
  let req := { req with routeParamNames := none }
  let req := { req with routeParamValues := none }
  let req := { req with parseRouteParamsOnce := some { done := false } }
  let req := { req with parseOtherParamsOnce := some { done := false } }
  { req with localizedString := none }

/-- "Reset the response". -/
def resetResponse (env : Env) (a : Air) (res : Response) (resPtr reqPtr : Nat)
    (rw : Nat) : Response :=
  let res := { res with Air := some a.addr }
  let res := env.SetHTTPResponseWriter res { r := resPtr, w := rw }
  let res := { res with Status := 200 }
  let res := { res with ContentLength := -1 }
  let res := { res with Written := false }
  let res := { res with Minified := false }
  let res := { res with Gzipped := false }
  let res := { res with req := some reqPtr }
  let res := { res with ohrw := some rw }
  let res := { res with servingContent := false }
  let res := { res with serveContentError := none }
  let res := { res with reverseProxying := false }
  { res with deferredFuncs := res.deferredFuncs.take 0 }

/-- The state in which the composed handler is started: the engine, the reset
pair and the outside world. -/
def entered (env : Env) (s : server) (q : Acquired) (rw : Nat)
    (r : HTTPRequest) : World :=
  { a := s.a
    req := resetRequest env s.a q.req q.resPtr (tieBody q.reqPtr r)
    res := resetResponse env s.a q.res q.resPtr q.reqPtr rw
    log := s.log }

/-- Calls that `ServeHTTP` itself makes after the composed handler returned:
the error handler (with the state it is invoked in) and the deferred
functions. -/
inductive Call where
  | errorHandler (h : Nat) (err : Error) (w : World)
  | deferredFunc (f : Nat)
  deriving DecidableEq, Repr

/-- The status fix that precedes the error handler. -/
def forceStatus (w : World) : World :=
  if w.res.Written = false ∧ w.res.Status < 400 then
    { w with res := { w.res with Status := 500 } }
  else w

/-- "Execute the chain": build the chain from the engine as it stands, run it,
and on a non-nil error fix the status and invoke the error handler. -/
def execute (env : Env) (w : World) : World × List Call :=
  let r := chain env w.a w
  match r.1 with
  | some err =>
    let w1 := forceStatus r.2
    (env.errorHandlerOf w1.a.ErrorHandler err w1,
      [Call.errorHandler w1.a.ErrorHandler err w1])
  | none => (r.2, [])

/-- The loop `for i := len(res.deferredFuncs) - 1; i >= 0; i-- {
res.deferredFuncs[i]() }`; the counter is `i + 1`.  The slice is read again at
every turn; an index out of range is a run-time panic (`none`). -/
def runDeferred (env : Env) : Nat → World → List Call → Option World × List Call
  | 0, w, calls => (some w, calls)
  | i + 1, w, calls =>
    match w.res.deferredFuncs[i]? with
    | some f => runDeferred env i (env.funcOf f w) (calls ++ [Call.deferredFunc f])
    | none => (none, calls)

/-- "Execute the deferred functions". -/
def cleanup (env : Env) (w : World) (calls : List Call) : Option World × List Call :=
  runDeferred env w.res.deferredFuncs.length w calls

/-- "Put the route param values back to the pool" and "Put the request and
response back to the pool". -/
def release (s : server) (q : Acquired) (w : World) : server :=
  { a := w.a
    requestPool := (q.reqPtr, w.req) :: q.requestPool
    responsePool := (q.resPtr, w.res) :: q.responsePool
    routeParamValuesPool :=
      match w.req.routeParamValues with
      | some v => v :: s.routeParamValuesPool
      | none => s.routeParamValuesPool
    fresh := s.fresh + 2
    log := w.log }

/-- What an exchange leaves: the calls `ServeHTTP` made after the composed
handler returned, and the server (`none` when the exchange panicked). -/
structure Exchange where
  calls : List Call
  s : Option server
  deriving DecidableEq, Repr

/-- The method `ServeHTTP` for the platform writer `rw` and request `r`. -/
def server.ServeHTTP (env : Env) (s : server) (kreq kres : Nat) (rw : Nat)
    (r : HTTPRequest) : Exchange :=
  let q := acquire s kreq kres
  let w := entered env s q rw r
  let x := execute env w
  let c := cleanup env x.1 x.2
  match c.1 with
  | some w1 => { calls := c.2, s := some (release s q w1) }
  | none => { calls := c.2, s := none }

/-! ## server.go: serve -/

/-- Index of the first byte `c` of `s`, as `strings.IndexByte` without the
`-1`: `none` when there is none. -/
def indexByte (s : List Char) (c : Char) : Option Nat :=
  match s with
  | [] => none
  | x :: rest => if x = c then some 0 else (indexByte rest c).map (· + 1)

/-- Index of the last byte `c` of `s`, `none` when there is none. -/
def lastIndexByte (s : List Char) (c : Char) : Option Nat :=
  match s with
  | [] => none
  | x :: rest =>
    match lastIndexByte rest c with
    | some i => some (i + 1)
    | none => if x = c then some 0 else none

/-- The three results of `net.SplitHostPort`; `host` and `port` are empty when
`err` is set. -/
structure HostPort where
  host : String
  port : String
  err : Option String
  deriving DecidableEq, Repr

/-- The error return of `net.SplitHostPort`. -/
def addrErr (why : String) : HostPort :=
  { host := "", port := "", err := some why }

/-- Go's `net.SplitHostPort` (standard library), statement by statement:
`host:port`, `[host]:port`; the brackets of a literal IPv6 host are not part
of the host it returns. -/
def SplitHostPort (hostport : String) : HostPort :=
  let hp := hostport.data
  match lastIndexByte hp ':' with
  | none => addrErr "missing port in address"
  | some i =>
    if hp.head? = some '[' then
      match indexByte hp ']' with
      | none => addrErr "missing ']' in address"
      | some e =>
        if e + 1 = hp.length then addrErr "missing port in address"
        else if e + 1 = i then
          if (indexByte (hp.drop 1) '[').isSome then
            addrErr "unexpected '[' in address"
          else if (indexByte (hp.drop (e + 1)) ']').isSome then
            addrErr "unexpected ']' in address"
          else
            { host := String.mk ((hp.take e).drop 1)
              port := String.mk (hp.drop (i + 1))
              err := none }
        else if hp[e + 1]? = some ':' then addrErr "too many colons in address"
        else addrErr "missing port in address"
    else
      if (indexByte (hp.take i) ':').isSome then
        addrErr "too many colons in address"
      else if (indexByte hp '[').isSome then
        addrErr "unexpected '[' in address"
      else if (indexByte hp ']').isSome then
        addrErr "unexpected ']' in address"
      else
        { host := String.mk (hp.take i)
          port := String.mk (hp.drop (i + 1))
          err := none }

/-- What `http.Redirect(rw, r, url, code)` is asked to send. -/
structure Redirect where
  url : String
  code : Nat
  deriving DecidableEq, Repr

/-- The HTTPS-enforcement handler `hh` of `serve`; `port` is the port that
`serve` split off the engine's `Address`. -/
def hh (port : String) (r : HTTPRequest) : Redirect :=
  let host := (SplitHostPort r.Host).host
  let host := if host = "" then r.Host else host
  let host := host ++ ":" ++ port
  { url := "https://" ++ host ++ r.RequestURI, code := 301 }

/-- The handlers that `serve` installs on an `http.Server`. -/
inductive HTTPHandler where
  | engine
  | h2c (h : HTTPHandler)
  | enforce (port : String)
  | acme (fallback : HTTPHandler)
  deriving DecidableEq, Repr

/-- A `*tls.Config`: one loaded certificate, or the configuration of the
certificate manager. -/
inductive TLSConfig where
  | certificates (c : Nat)
  | autocert (cache directoryURL email : String) (hostPolicy : Option (List String))
  deriving DecidableEq, Repr

/-- The branch of the `if` / `else if` / `else` of `serve`. -/
inductive Transport where
  | staticTLS
  | acme
  | h2c
  deriving DecidableEq, Repr

/-- The platform calls of `serve` that can fail. -/
structure Platform where
  LoadX509KeyPair : String → String → Error ⊕ Nat
  listen : String → Option Error

/-- How `serve` ended: with a start-up error, serving cleartext through
`Serve`, or serving TLS through `ServeTLS`, with the address of the
enforcement server when one was started. -/
inductive Started where
  | failed (err : Error)
  | Serve (addr : String) (handler : HTTPHandler)
  | ServeTLS (addr : String) (handler : HTTPHandler) (enforcer : Option (String × HTTPHandler))
  deriving DecidableEq, Repr

/-- The state `serve` leaves: the engine, the branch it entered (`none` when it
returned before the branch), the `TLSConfig` of its `http.Server` and how it
ended. -/
structure Serving where
  a : Air
  transport : Option Transport
  TLSConfig : Option TLSConfig
  started : Started
  deriving DecidableEq, Repr

/-- The tail of `serve` shared by the two TLS branches: the enforcement server
when `HTTPSEnforced`, then the TLS listener. -/
def serveTLS (p : Platform) (a : Air) (host addr : String) (hh : HTTPHandler) : Started :=
  if a.HTTPSEnforced then
    match p.listen (host ++ ":" ++ a.HTTPSEnforcedPort) with
    | some err => Started.failed err
    | none =>
      match p.listen addr with
      | some err => Started.failed err
      | none =>
        Started.ServeTLS addr HTTPHandler.engine
          (some (host ++ ":" ++ a.HTTPSEnforcedPort, hh))
  else
    match p.listen addr with
    | some err => Started.failed err
    | none => Started.ServeTLS addr HTTPHandler.engine none

/-- The method `serve`.  Timeouts, header limit and error logger are copied to
the `http.Server` unchanged and are left out. -/
def server.serve (p : Platform) (s : server) : Serving :=
  let a := s.a
  let hp := SplitHostPort a.Address
  match hp.err with
  | some err =>
    { a := a, transport := none, TLSConfig := none,
      started := Started.failed (Error.plain err) }
  | none =>
    let addr := hp.host ++ ":" ++ hp.port
    let hh := HTTPHandler.enforce hp.port
    if a.TLSCertFile ≠ "" ∧ a.TLSKeyFile ≠ "" then
      match p.LoadX509KeyPair a.TLSCertFile a.TLSKeyFile with
      | Sum.inl err =>
        { a := a, transport := some Transport.staticTLS, TLSConfig := none,
          started := Started.failed err }
      | Sum.inr c =>
        { a := a, transport := some Transport.staticTLS,
          TLSConfig := some (TLSConfig.certificates c),
          started := serveTLS p a hp.host addr hh }
    else if a.DebugMode = false ∧ a.ACMEEnabled = true then
      let hh := HTTPHandler.acme hh
      let a := { a with HTTPSEnforced := true }
      { a := a, transport := some Transport.acme,
        TLSConfig := some (TLSConfig.autocert a.ACMECertRoot a.ACMEDirectoryURL
          a.MaintainerEmail a.ACMEHostWhitelist),
        started := serveTLS p a hp.host addr hh }
    else
      { a := a, transport := some Transport.h2c, TLSConfig := none,
        started :=
          match p.listen addr with
          | some err => Started.failed err
          | none => Started.Serve addr (HTTPHandler.h2c HTTPHandler.engine) }

/-! ## i18n.go -/

/-- The locale manager `i18n`: the locale tables by tag, the tags the matcher
was built from, and whether `parseLocalesOnce` has fired. -/
structure i18n where
  locales : GoMap (GoMap String)
  matcher : List String
  parseLocalesOnce : Once
  deriving DecidableEq, Repr

/-- The two calls of `localize` that leave the file: `parseLocales`, which
reads the locale files, and `language.MatchStrings` followed by `String()`,
which yields the tag matched for the `Accept-Language` values. -/
structure Locale where
  parseLocales : i18n → i18n
  MatchStrings : List String → List String → String

/-- Map index `m[k]` in its one-valued form: the zero value (a `nil` map) when
the key is absent. -/
def GoMap.index {V : Type} (m : GoMap (GoMap V)) (k : String) : GoMap V :=
  match GoMap.get m k with
  | some v => v
  | none => []

/-- The call `parseLocalesOnce.Do(parseLocales)`. -/
def i18n.parseOnce (e : Locale) (i : i18n) : i18n :=
  if i.parseLocalesOnce.done then i
  else { e.parseLocales i with parseLocalesOnce := { done := true } }

/-- The tag `t.String()` that `localize` matches for the request `r`. -/
def i18n.matched (e : Locale) (i : i18n) (r : Request) : String :=
  e.MatchStrings i.matcher
    (match GoMap.get r.Header "Accept-Language" with
     | some vs => vs
     | none => [])

/-- The method `localize`: it returns the manager (locales parsed) and the
request with its resolver installed. -/
def i18n.localize (e : Locale) (i : i18n) (r : Request) : i18n × Request :=
  let i := i18n.parseOnce e i
  let t := i18n.matched e i r
  let l := GoMap.index i.locales t
  (i, { r with localizedString := some { l := l } })

/-- A call `r.localizedString(key)` of the closure installed by `localize`,
in the state of the manager `i` and the engine `a` at the time of the call. -/
def LocalizedString.call (f : LocalizedString) (i : i18n) (a : Air) (key : String) :
    String :=
  match GoMap.get f.l key with
  | some v => v
  | none =>
    match GoMap.get (GoMap.index i.locales a.LocaleBase) key with
    | some v => v
    | none => key

/-- The resolver as the specification words it: the matched locale's string
when that locale defines the key, otherwise the base locale's string when the
base locale defines it, otherwise the key. -/
def resolveSpec (locales : GoMap (GoMap String)) (base matched key : String) : String :=
  match (GoMap.get locales matched).bind (fun l => GoMap.get l key) with
  | some v => v
  | none =>
    match (GoMap.get locales base).bind (fun l => GoMap.get l key) with
    | some v => v
    | none => key

end air

/-! ## gases/jwt.go -/

namespace gases

/-- A `*jwt.Token` as far as the gas looks at it. -/
structure Token where
  Raw : String
  Valid : Bool
  deriving DecidableEq, Repr

/-- The parts of an `*air.Context` that the gas uses: the request header, the
query parameters and the values set on the context. -/
structure Context where
  Header : air.GoMap (List String)
  QueryParams : air.GoMap String
  values : air.GoMap Token
  deriving DecidableEq, Repr

/-- An `air.HandlerFunc` of this gas: `func(*Context) error`. -/
abbrev HandlerFunc := Context → Option air.Error × Context

/-- An `air.GasFunc` of this gas. -/
abbrev GasFunc := HandlerFunc → HandlerFunc

/-- `Header.Get`: the first value of the header, the empty string when it is
absent.  Header names are kept in canonical form. -/
def HeaderGet (h : air.GoMap (List String)) (key : String) : String :=
  match air.GoMap.get h key with
  | some (v :: _) => v
  | _ => ""

/-- `Context.QueryParam`: the value of the query parameter, empty when absent. -/
def Context.QueryParam (c : Context) (name : String) : String :=
  match air.GoMap.get c.QueryParams name with
  | some v => v
  | none => ""

/-- Modelled from the spec: `Context.SetValue` is declared outside these files;
it attaches the value to the context under the key. -/
def Context.SetValue (c : Context) (key : String) (t : Token) : Context :=
  { c with values := (key, t) :: c.values }

/-- Modelled from the spec: `air.ErrUnauthorized` is declared outside these
files; it is the HTTP error of status 401. -/
def ErrUnauthorized : air.Error := air.Error.http 401 "Unauthorized"

/-- The constructor `air.NewHTTPError(code, msg)`. -/
def NewHTTPError (code : Nat) (msg : String) : air.Error := air.Error.http code msg

/-- The constant `bearer`. -/
def bearer : String := "Bearer"

/-- `JWTConfig`; `Skipper` and `SigningKey` may be `nil`. -/
structure JWTConfig where
  Skipper : Option (Context → Bool)
  SigningKey : Option (List Nat)
  SigningMethod : String
  ContextKey : String
  TokenLookup : String

/-- The skipper `defaultSkipper`, which skips nothing. -/
def defaultSkipper : Context → Bool := fun _ => false

/-- `DefaultJWTConfig`. -/
def DefaultJWTConfig : JWTConfig :=
  { Skipper := some defaultSkipper
    SigningKey := none
    SigningMethod := "HS256"
    ContextKey := "user"
    TokenLookup := "header:" ++ "Authorization" }

/-- A `JWTConfig` after `fill`: every field has a value. -/
structure Filled where
  Skipper : Context → Bool
  SigningKey : List Nat
  SigningMethod : String
  ContextKey : String
  TokenLookup : String

/-- The method `fill`; `none` is the panic on a missing signing key. -/
def JWTConfig.fill (c : JWTConfig) : Option Filled :=
  match c.SigningKey with
  | none => none
  | some key =>
    some
      { Skipper := match c.Skipper with
          | some s => s
          | none => defaultSkipper
        SigningKey := key
        SigningMethod := if c.SigningMethod = "" then DefaultJWTConfig.SigningMethod
          else c.SigningMethod
        ContextKey := if c.ContextKey = "" then DefaultJWTConfig.ContextKey
          else c.ContextKey
        TokenLookup := if c.TokenLookup = "" then DefaultJWTConfig.TokenLookup
          else c.TokenLookup }

/-- `strings.Split(s, sep)` for a separator of one byte, on byte lists. -/
def splitBytes (sep : Char) : List Char → List (List Char)
  | [] => [[]]
  | c :: cs =>
    if c = sep then [] :: splitBytes sep cs
    else
      match splitBytes sep cs with
      | [] => [[c]]
      | p :: ps => (c :: p) :: ps

/-- `strings.Split(s, ":")`. -/
def Split (s : String) : List String :=
  (splitBytes ':' s.data).map String.mk

/-- The result `(string, error)` of a `jwtExtractor`. -/
abbrev Extracted := String × Option String

/-- `jwtFromHeader`. -/
def jwtFromHeader (header : String) : Context → Extracted := fun c =>
  let auth := HeaderGet c.Header header
  let l := bearer.length
  if auth.length > l + 1 ∧ String.mk (auth.data.take l) = bearer then
    (String.mk (auth.data.drop (l + 1)), none)
  else
    ("", some "Empty Or Invalid JWT In Authorization Header")

/-- `jwtFromQuery`. -/
def jwtFromQuery (param : String) : Context → Extracted := fun c =>
  let token := c.QueryParam param
  if token = "" then ("", some "Empty JWT In Query Param")
  else (token, none)

/-- What `jwt.Parse` returns: a token and no error, or an error. -/
inductive Parsed where
  | ok (token : Token)
  | failed (err : String)
  deriving DecidableEq, Repr

/-- Token verification `jwt.Parse(auth, keyFunc)`, abstract; the key function
of the gas is determined by the signing method and key it closes over. -/
abbrev Parse := String → String → List Nat → Parsed

/-- `JWTWithConfig`; `none` is a panic while the gas is built (no signing key,
or a `TokenLookup` without a colon). -/
def JWTWithConfig (parse : Parse) (config : JWTConfig) : Option GasFunc :=
  match config.fill with
  | none => none
  | some config =>
    let parts := Split config.TokenLookup
    match parts[0]?, parts[1]? with
    | some p0, some p1 =>
      let extractor := if p0 = "query" then jwtFromQuery p1 else jwtFromHeader p1
      some (fun next c =>
        if config.Skipper c then next c
        else
          match extractor c with
          | (_, some err) => (some (NewHTTPError 400 err), c)
          | (auth, none) =>
            match parse auth config.SigningMethod config.SigningKey with
            | Parsed.ok token =>
              if token.Valid then next (c.SetValue config.ContextKey token)
              else (some ErrUnauthorized, c)
            | Parsed.failed _ => (some ErrUnauthorized, c))
    | _, _ => none

/-- `JWT`; a `nil` key is `none`. -/
def JWT (parse : Parse) (key : Option (List Nat)) : Option GasFunc :=
  JWTWithConfig parse { DefaultJWTConfig with SigningKey := key }

end gases

namespace air

/-! ## Concrete inputs -/

/-- An engine with nothing registered, listening on `localhost:443`. -/
def plainAir : Air :=
  { addr := 1, Address := "localhost:443", DebugMode := false, TLSCertFile := "",
    TLSKeyFile := "", ACMEEnabled := false, ACMECertRoot := "",
    ACMEDirectoryURL := "", ACMEHostWhitelist := none, MaintainerEmail := "",
    HTTPSEnforced := false, HTTPSEnforcedPort := "80", LocaleBase := "en",
    Pregases := [], Gases := [], ErrorHandler := 0 }

/-- An environment whose gases pass through, whose callbacks and error handler
do nothing and whose router yields a handler that returns `nil`. -/
def plainEnv : Env :=
  { gasOf := fun _ h => h
    funcOf := fun _ w => w
    errorHandlerOf := fun _ _ w => w
    route := fun w => (terminal none, w)
    SetHTTPRequest := fun req r => { req with hr := some r, Header := r.Header }
    SetHTTPResponseWriter := fun res rw => { res with hrw := some rw } }

/-- A server with empty pools around the engine `a`. -/
def freshServer (a : Air) : server :=
  { a := a, requestPool := [], responsePool := [], routeParamValuesPool := [],
    fresh := 100, log := [] }

/-- A request for `/` on `example.com`. -/
def plainRequest : HTTPRequest :=
  { Host := "example.com", RequestURI := "/", Header := [], Body := Body.std 0 }

/-- Wrapping layers of which pregas `1` registers gas `7` before it calls
`next`. -/
def lateGasEnv : Env :=
  wrappingEnv plainEnv
    (fun id a => if id = 1 then { a with Gases := [7] } else a)
    (fun _ a => a) none

/-- A server whose engine has the one pregas `1` and no gas. -/
def lateGasServer : server :=
  freshServer { plainAir with Pregases := [1] }

/-- The deferred functions invoked by an exchange, in the order of their
invocation. -/
def deferredCalls (calls : List Call) : List Nat :=
  calls.filterMap (fun c =>
    match c with
    | Call.errorHandler _ _ _ => none
    | Call.deferredFunc f => some f)

/-- Modelled from the spec: `Response.Defer` is declared outside these files;
it registers the callback at the end of the response's ordered list of
deferred callbacks. -/
def Defer (f : Nat) (w : World) : World :=
  { w with res := { w.res with deferredFuncs := w.res.deferredFuncs ++ [f] } }

/-- The routed handler registers callback `1` and returns `nil`; callback `1`,
when it runs, registers callback `2`. -/
def nestedDeferEnv : Env :=
  { plainEnv with
    route := fun w => (fun v => (none, Defer 1 v), w)
    funcOf := fun f w => if f = 1 then Defer 2 w else w }

/-- The routed handler registers callbacks `1`, `2`, `3` in this order and
returns `err`; the error handler registers callback `4`. -/
def deferEnv (err : Option Error) : Env :=
  { plainEnv with
    route := fun w => (fun v => (err, Defer 3 (Defer 2 (Defer 1 v))), w)
    errorHandlerOf := fun _ _ w => Defer 4 w }

/-- Whether the pair of a state is at its exchange defaults and the request at
`reqPtr` and the response at `resPtr` point at each other. -/
def pairIsReset (reqPtr resPtr : Nat) (w : World) : Bool :=
  decide (w.res.Status = 200) && decide (w.res.ContentLength = -1) &&
  !w.res.Written && !w.res.Minified && !w.res.Gzipped &&
  decide (w.res.deferredFuncs = []) && decide (w.req.params.length = 0) &&
  decide (w.req.routeParamNames = none) && decide (w.req.routeParamValues = none) &&
  decide (w.req.localizedString = none) &&
  decide (w.req.res = some resPtr) && decide (w.res.req = some reqPtr)

/-- The environment `env` with gases that pass through and a routed handler
that looks at the state it is started in: it returns `nil` when the pair is
reset and an error when it is not, and changes nothing. -/
def probeEnv (env : Env) (reqPtr resPtr : Nat) : Env :=
  { env with
    gasOf := fun _ h => h
    route := fun w =>
      (fun v => (if pairIsReset reqPtr resPtr v then none else some (Error.plain "dirty"), v), w) }

/-- A platform on which the key pair loads and every listener binds. -/
def okPlatform : Platform :=
  { LoadX509KeyPair := fun _ _ => Sum.inr 0
    listen := fun _ => none }

/-- ACME enabled and HTTPS enforcement off, in debug mode. -/
def acmeDebugAir : Air :=
  { plainAir with ACMEEnabled := true, DebugMode := true }

/-- Static certificate and key, HTTPS enforcement on. -/
def enforcedAir : Air :=
  { plainAir with TLSCertFile := "cert.pem", TLSKeyFile := "key.pem", HTTPSEnforced := true }

/-- A plain-HTTP request whose `Host` header names a literal IPv6 host. -/
def ipv6Request : HTTPRequest :=
  { Host := "[::1]:8080", RequestURI := "/x?y=1", Header := [], Body := Body.std 0 }

/-- A plain-HTTP request whose `Host` header has a port and an empty host. -/
def emptyHostRequest : HTTPRequest :=
  { Host := ":8080", RequestURI := "/x?y=1", Header := [], Body := Body.std 0 }

/-- The request of a named host. -/
def namedHostRequest : HTTPRequest :=
  { Host := "example.com:8080", RequestURI := "/x?y=1", Header := [], Body := Body.std 0 }


/-- The locale tables of the scenario: English and French. -/
def scenarioLocales : GoMap (GoMap String) :=
  [("en", [("hi", "Hello")]), ("fr", [("hi", "Bonjour")])]

/-- A manager that has parsed the scenario's locale files. -/
def scenarioI18n : i18n :=
  { locales := scenarioLocales, matcher := ["en", "fr"],
    parseLocalesOnce := { done := true } }

/-- A matcher that takes the first requested tag it supports and the first
supported tag otherwise. -/
def firstSupported : Locale :=
  { parseLocales := fun i => i
    MatchStrings := fun tags wanted =>
      match wanted.filter (fun t => tags.contains t) with
      | t :: _ => t
      | [] => tags.headD "und" }

/-- A request with the header `Accept-Language: fr`. -/
def frenchRequest : Request :=
  { Request.zero with Header := [("Accept-Language", ["fr"])] }

end air

namespace gases

/-- A context whose `Authorization` header is `BearerXabc`: the scheme is not
followed by a space. -/
def unseparated : Context :=
  { Header := [("Authorization", ["BearerXabc"])], QueryParams := [], values := [] }

/-- A verifier that accepts every token. -/
def acceptAll : Parse := fun auth _ _ => Parsed.ok { Raw := auth, Valid := true }

/-- A verifier that rejects every token. -/
def rejectAll : Parse := fun _ _ _ => Parsed.failed "signature is invalid"

/-- A next handler that returns `nil`. -/
def passNext : HandlerFunc := fun c => (none, c)

end gases

/-! # Theorems -/

namespace air

/-! ## Chaining -/

theorem chainLoop_take (gasOf : Nat → Gas) (gs : List Nat) :
    ∀ (n : Nat) (h : Handler), n ≤ gs.length →
      chainLoop gasOf gs n h = nest gasOf (gs.take n) h := by
  intro n
  induction n with
  | zero => intro h _; simp [chainLoop, nest]
  | succ i ih =>
    intro h hle
    have hi : i < gs.length := hle
    have hget : gs[i]? = some gs[i] := List.getElem?_eq_getElem hi
    rw [chainLoop, hget]
    simp only
    rw [ih _ (Nat.le_of_lt hi)]
    have htake : gs.take (i + 1) = gs.take i ++ [gs[i]] := by
      simp
    rw [htake, nest, nest, List.foldr_append]
    rfl

theorem chainLoop_eq_nest (gasOf : Nat → Gas) (gs : List Nat) (h : Handler) :
    chainLoop gasOf gs gs.length h = nest gasOf gs h := by
  rw [chainLoop_take gasOf gs gs.length h (Nat.le_refl _), List.take_length]

theorem gasStage_eq (env : Env) (w : World) :
    gasStage env w
      = nest env.gasOf (env.route w).2.a.Gases (env.route w).1 (env.route w).2 := by
  simp only [gasStage]
  rw [chainLoop_eq_nest]

theorem chain_eq (env : Env) (a : Air) :
    chain env a = nest env.gasOf a.Pregases (gasStage env) := by
  simp only [chain]
  rw [chainLoop_eq_nest]

/-- Layers that wrap their call to `next`, nested around `h`: the engine
changes made on the way in are applied first to last, then `h` runs, then the
changes made on the way out are applied last to first. -/
theorem nest_wrapping (before after : Nat → Air → Air) (h : Handler) :
    ∀ (ps : List Nat) (w : World),
      nest (fun id => wrapping id (before id) (after id)) ps h w
        = ((h { w with a := ps.foldl (fun a p => before p a) w.a,
                       log := w.log ++ ps.map Event.enter }).1,
           { (h { w with a := ps.foldl (fun a p => before p a) w.a,
                         log := w.log ++ ps.map Event.enter }).2 with
             a := ps.foldr (fun p a => after p a)
               (h { w with a := ps.foldl (fun a p => before p a) w.a,
                           log := w.log ++ ps.map Event.enter }).2.a,
             log := (h { w with a := ps.foldl (fun a p => before p a) w.a,
                                log := w.log ++ ps.map Event.enter }).2.log
               ++ ps.reverse.map Event.leave }) := by
  intro ps
  induction ps with
  | nil => intro w; simp [nest]
  | cons p ps ih =>
    intro w
    have hstep : nest (fun id => wrapping id (before id) (after id)) (p :: ps) h w
        = wrapping p (before p) (after p)
            (nest (fun id => wrapping id (before id) (after id)) ps h) w := rfl
    rw [hstep]
    simp only [wrapping]
    rw [ih]
    simp [List.append_assoc]

/-- The composed handler in an environment of wrapping layers: its error is the
routed handler's, and the layers that run are the pregases of the engine the
chain was built from, then the gases of the engine as the pregases left it on
their way in. -/
theorem chain_wrapping (env : Env) (before after : Nat → Air → Air)
    (result : Option Error) (w : World) :
    (chain (wrappingEnv env before after result) w.a w).1 = result ∧
    (chain (wrappingEnv env before after result) w.a w).2.log
      = w.log ++ w.a.Pregases.map Event.enter
          ++ (w.a.Pregases.foldl (fun a p => before p a) w.a).Gases.map Event.enter
          ++ [Event.handled]
          ++ (w.a.Pregases.foldl (fun a p => before p a) w.a).Gases.reverse.map Event.leave
          ++ w.a.Pregases.reverse.map Event.leave := by
  rw [chain_eq]
  have hg : (wrappingEnv env before after result).gasOf
      = fun id => wrapping id (before id) (after id) := rfl
  rw [hg, nest_wrapping]
  simp only [gasStage_eq, hg]
  have hr : ∀ v : World, (wrappingEnv env before after result).route v
      = (terminal result, v) := fun _ => rfl
  simp only [hr, nest_wrapping, terminal]
  simp [List.append_assoc]

theorem foldl_id_air (ps : List Nat) (a : Air) :
    ps.foldl (fun a _ => id a) a = a := by
  induction ps with
  | nil => rfl
  | cons p ps ih => simp

theorem layersEntered_append (xs ys : List Event) :
    layersEntered (xs ++ ys) = layersEntered xs ++ layersEntered ys := by
  simp [layersEntered, List.filterMap_append]

theorem layersEntered_enter (ps : List Nat) :
    layersEntered (ps.map Event.enter) = ps := by
  induction ps with
  | nil => rfl
  | cons p ps ih => simpa [layersEntered] using ih

theorem layersEntered_leave (ps : List Nat) :
    layersEntered (ps.map Event.leave) = [] := by
  induction ps with
  | nil => rfl
  | cons p ps ih => simp [layersEntered]


/-! ## The exchange -/

/-- When callbacks only ever add to the deferred list, the loop runs through
and invokes the first `n` entries of the list it started with, last first. -/
theorem runDeferred_reverse (env : Env)
    (happend : ∀ (f : Nat) (w : World), ∃ more : List Nat,
      (env.funcOf f w).res.deferredFuncs = w.res.deferredFuncs ++ more) :
    ∀ (n : Nat) (w : World) (calls : List Call), n ≤ w.res.deferredFuncs.length →
      ∃ w1 : World, runDeferred env n w calls
        = (some w1, calls ++ ((w.res.deferredFuncs.take n).reverse.map Call.deferredFunc)) := by
  intro n
  induction n with
  | zero => intro w calls _; exact ⟨w, by simp [runDeferred]⟩
  | succ i ih =>
    intro w calls hle
    have hi : i < w.res.deferredFuncs.length := hle
    have hget : w.res.deferredFuncs[i]? = some w.res.deferredFuncs[i] :=
      List.getElem?_eq_getElem hi
    obtain ⟨more, hmore⟩ := happend w.res.deferredFuncs[i] w
    have hle1 : i ≤ (env.funcOf w.res.deferredFuncs[i] w).res.deferredFuncs.length := by
      rw [hmore, List.length_append]; omega
    obtain ⟨w1, hw1⟩ := ih (env.funcOf w.res.deferredFuncs[i] w)
      (calls ++ [Call.deferredFunc w.res.deferredFuncs[i]]) hle1
    refine ⟨w1, ?_⟩
    rw [runDeferred, hget]
    simp only
    rw [hw1, hmore, List.take_append_of_le_length (Nat.le_of_lt hi)]
    have htake : w.res.deferredFuncs.take (i + 1)
        = w.res.deferredFuncs.take i ++ [w.res.deferredFuncs[i]] := by simp
    rw [htake]
    simp only [List.reverse_append, List.map_append, List.append_assoc,
      List.reverse_cons, List.reverse_nil, List.map_cons, List.map_nil,
      List.nil_append]

theorem deferredCalls_append (xs ys : List Call) :
    deferredCalls (xs ++ ys) = deferredCalls xs ++ deferredCalls ys := by
  simp [deferredCalls, List.filterMap_append]

theorem deferredCalls_map (fs : List Nat) :
    deferredCalls (fs.map Call.deferredFunc) = fs := by
  induction fs with
  | nil => rfl
  | cons f fs ih => simpa [deferredCalls] using ih

theorem deferredCalls_execute (env : Env) (w : World) :
    deferredCalls (execute env w).2 = [] := by
  simp only [execute]
  cases (chain env w.a w).1 <;> simp [deferredCalls]

theorem ServeHTTP_calls (env : Env) (s : server) (kreq kres rw : Nat) (r : HTTPRequest) :
    (server.ServeHTTP env s kreq kres rw r).calls
      = (cleanup env (execute env (entered env s (acquire s kreq kres) rw r)).1
          (execute env (entered env s (acquire s kreq kres) rw r)).2).2 := by
  simp only [server.ServeHTTP]
  split <;> rfl

theorem ServeHTTP_server_isSome (env : Env) (s : server) (kreq kres rw : Nat)
    (r : HTTPRequest) :
    (server.ServeHTTP env s kreq kres rw r).s.isSome
      = (cleanup env (execute env (entered env s (acquire s kreq kres) rw r)).1
          (execute env (entered env s (acquire s kreq kres) rw r)).2).1.isSome := by
  simp only [server.ServeHTTP]
  split <;> simp_all

/-- C2, the claim at a concrete exchange, refuted: the handler registers
callback `1`, which on running registers callback `2`; the exchange invokes
callback `1` only, and puts the response back into the pool with callback `2`
registered and never run. -/
theorem ServeHTTP_nested_defer_not_run :
    (server.ServeHTTP nestedDeferEnv (freshServer plainAir) 0 0 0 plainRequest).calls
      = [Call.deferredFunc 1] ∧
    ((server.ServeHTTP nestedDeferEnv (freshServer plainAir) 0 0 0 plainRequest).s.map
        (fun s => s.responsePool.map (fun p => p.2.deferredFuncs)))
      = some [[1, 2]] := by
  decide

/-- C2, amended: callbacks register through `Defer`, so they only ever add to
the list; then every exchange runs its cleanup to the end, and the deferred
functions it invokes are exactly the entries of the list as the composed
handler (and the error handler, when the handler returned an error) left it,
each once, last registered first.  A callback that a deferred function
registers during cleanup is not among them. -/
theorem ServeHTTP_deferred_reverse (env : Env)
    (happend : ∀ (f : Nat) (w : World), ∃ more : List Nat,
      (env.funcOf f w).res.deferredFuncs = w.res.deferredFuncs ++ more)
    (s : server) (kreq kres rw : Nat) (r : HTTPRequest) :
    (server.ServeHTTP env s kreq kres rw r).s.isSome = true ∧
    deferredCalls (server.ServeHTTP env s kreq kres rw r).calls
      = (execute env (entered env s (acquire s kreq kres) rw r)).1.res.deferredFuncs.reverse ∧
    (server.ServeHTTP env s kreq kres rw r).calls
      = (execute env (entered env s (acquire s kreq kres) rw r)).2
          ++ (execute env (entered env s (acquire s kreq kres) rw r)).1.res.deferredFuncs.reverse.map
              Call.deferredFunc := by
  obtain ⟨w1, hw1⟩ := runDeferred_reverse env happend
    (execute env (entered env s (acquire s kreq kres) rw r)).1.res.deferredFuncs.length
    (execute env (entered env s (acquire s kreq kres) rw r)).1
    (execute env (entered env s (acquire s kreq kres) rw r)).2 (Nat.le_refl _)
  rw [List.take_length] at hw1
  have hc : cleanup env (execute env (entered env s (acquire s kreq kres) rw r)).1
      (execute env (entered env s (acquire s kreq kres) rw r)).2
      = (some w1, (execute env (entered env s (acquire s kreq kres) rw r)).2
          ++ (execute env (entered env s (acquire s kreq kres) rw r)).1.res.deferredFuncs.reverse.map
              Call.deferredFunc) := hw1
  refine ⟨?_, ?_, ?_⟩
  · rw [ServeHTTP_server_isSome, hc]; rfl
  · rw [ServeHTTP_calls, hc]
    simp only [deferredCalls_append, deferredCalls_execute, deferredCalls_map, List.nil_append]
  · rw [ServeHTTP_calls, hc]

/-- Witness of C2 amended: the handler registers `1`, `2`, `3` and fails, the
error handler registers `4`; the exchange invokes `4`, `3`, `2`, `1`. -/
theorem ServeHTTP_deferred_reverse_witness :
    (∀ (f : Nat) (w : World), ∃ more : List Nat,
      ((deferEnv (some (Error.plain "boom"))).funcOf f w).res.deferredFuncs
        = w.res.deferredFuncs ++ more) ∧
    deferredCalls (server.ServeHTTP (deferEnv (some (Error.plain "boom")))
        (freshServer plainAir) 0 0 0 plainRequest).calls = [4, 3, 2, 1] :=
  ⟨fun _ _ => ⟨[], by simp [deferEnv, plainEnv]⟩,
   (ServeHTTP_deferred_reverse (deferEnv (some (Error.plain "boom")))
      (fun _ _ => ⟨[], by simp [deferEnv, plainEnv]⟩)
      (freshServer plainAir) 0 0 0 plainRequest).2.1.trans (by decide)⟩

theorem nest_pass (gs : List Nat) (h : Handler) : nest (fun _ k => k) gs h = h := by
  induction gs with
  | nil => rfl
  | cons g gs ih => simp [nest]

/-- C4: whatever the pools hold and whichever pooled pair they hand out,
`ServeHTTP` starts the composed handler `chain env s.a` in the state `entered`,
where the response has status 200, content length -1, the three flags off and
no deferred callback, the request has no params, no route parameter names or
values and no resolver, and the two objects point at each other; a routed
handler that inspects the state it is started in finds the pair reset in every
exchange, so that no error handler is invoked. -/
theorem ServeHTTP_pair_is_reset (env : Env) (s : server) (kreq kres rw : Nat)
    (r : HTTPRequest) :
    (entered env s (acquire s kreq kres) rw r).res.Status = 200 ∧
    (entered env s (acquire s kreq kres) rw r).res.ContentLength = -1 ∧
    (entered env s (acquire s kreq kres) rw r).res.Written = false ∧
    (entered env s (acquire s kreq kres) rw r).res.Minified = false ∧
    (entered env s (acquire s kreq kres) rw r).res.Gzipped = false ∧
    (entered env s (acquire s kreq kres) rw r).res.deferredFuncs = [] ∧
    (entered env s (acquire s kreq kres) rw r).req.params.length = 0 ∧
    (entered env s (acquire s kreq kres) rw r).req.routeParamNames = none ∧
    (entered env s (acquire s kreq kres) rw r).req.routeParamValues = none ∧
    (entered env s (acquire s kreq kres) rw r).req.localizedString = none ∧
    (entered env s (acquire s kreq kres) rw r).req.res = some (acquire s kreq kres).resPtr ∧
    (entered env s (acquire s kreq kres) rw r).res.req = some (acquire s kreq kres).reqPtr ∧
    server.ServeHTTP env s kreq kres rw r
      = { calls := (cleanup env (execute env (entered env s (acquire s kreq kres) rw r)).1
            (execute env (entered env s (acquire s kreq kres) rw r)).2).2
          s := (cleanup env (execute env (entered env s (acquire s kreq kres) rw r)).1
            (execute env (entered env s (acquire s kreq kres) rw r)).2).1.map
              (release s (acquire s kreq kres)) } ∧
    (execute env (entered env s (acquire s kreq kres) rw r)).1
      = (match (chain env s.a (entered env s (acquire s kreq kres) rw r)).1 with
         | none => (chain env s.a (entered env s (acquire s kreq kres) rw r)).2
         | some err =>
           env.errorHandlerOf
             (forceStatus (chain env s.a (entered env s (acquire s kreq kres) rw r)).2).a.ErrorHandler
             err (forceStatus (chain env s.a (entered env s (acquire s kreq kres) rw r)).2)) ∧
    server.ServeHTTP
        (probeEnv env (acquire s kreq kres).reqPtr (acquire s kreq kres).resPtr) s kreq kres rw r
      = { calls := []
          s := some (release s (acquire s kreq kres)
            (entered env s (acquire s kreq kres) rw r)) } := by
  refine ⟨?_, ?_, ?_, ?_, ?_, ?_, ?_, ?_, ?_, ?_, ?_, ?_, ?_, ?_, ?_⟩
  case refine_13 =>
    simp only [server.ServeHTTP]
    split <;> simp_all
  case refine_14 =>
    have ha : (entered env s (acquire s kreq kres) rw r).a = s.a := rfl
    simp only [execute, ha]
    cases (chain env s.a (entered env s (acquire s kreq kres) rw r)).1 <;> rfl
  case refine_15 =>
    have he : entered (probeEnv env (acquire s kreq kres).reqPtr (acquire s kreq kres).resPtr)
        s (acquire s kreq kres) rw r = entered env s (acquire s kreq kres) rw r := rfl
    have hp : pairIsReset (acquire s kreq kres).reqPtr (acquire s kreq kres).resPtr
        (entered env s (acquire s kreq kres) rw r) = true := by
      simp [pairIsReset, entered, resetRequest, resetResponse]
    have hd : (entered env s (acquire s kreq kres) rw r).res.deferredFuncs = [] := by
      simp [entered, resetResponse]
    have hg : (probeEnv env (acquire s kreq kres).reqPtr (acquire s kreq kres).resPtr).gasOf
        = fun _ k => k := rfl
    have hc : chain (probeEnv env (acquire s kreq kres).reqPtr (acquire s kreq kres).resPtr)
        (entered env s (acquire s kreq kres) rw r).a (entered env s (acquire s kreq kres) rw r)
        = (none, entered env s (acquire s kreq kres) rw r) := by
      rw [chain_eq, hg, nest_pass, gasStage_eq, hg, nest_pass]
      simp only [probeEnv, hp, if_true]
    simp only [server.ServeHTTP, he, execute, hc, cleanup, hd, List.length_nil, runDeferred]
  all_goals simp [entered, resetRequest, resetResponse]


/-! ## The chain inside the exchange -/

theorem chain_wrapping_pair (env : Env) (before after : Nat → Air → Air)
    (result : Option Error) (w : World) :
    (chain (wrappingEnv env before after result) w.a w).2.req = w.req ∧
    (chain (wrappingEnv env before after result) w.a w).2.res = w.res := by
  rw [chain_eq]
  have hg : (wrappingEnv env before after result).gasOf
      = fun id => wrapping id (before id) (after id) := rfl
  rw [hg, nest_wrapping]
  simp only [gasStage_eq, hg]
  have hr : ∀ v : World, (wrappingEnv env before after result).route v
      = (terminal result, v) := fun _ => rfl
  simp only [hr, nest_wrapping, terminal]
  exact ⟨trivial, trivial⟩

/-- An exchange whose layers wrap their call to `next` and whose routed handler
returns `nil`: no error handler, no deferred function, and the log the server
is left with is the log of the composed handler. -/
theorem ServeHTTP_wrapping (env : Env) (before after : Nat → Air → Air)
    (s : server) (kreq kres rw : Nat) (r : HTTPRequest) :
    (server.ServeHTTP (wrappingEnv env before after none) s kreq kres rw r).calls = [] ∧
    (server.ServeHTTP (wrappingEnv env before after none) s kreq kres rw r).s.map
        (fun t => t.log)
      = some (chain (wrappingEnv env before after none) s.a
          (entered (wrappingEnv env before after none) s (acquire s kreq kres) rw r)).2.log := by
  have ha : (entered (wrappingEnv env before after none) s (acquire s kreq kres) rw r).a
      = s.a := rfl
  have h1 := (chain_wrapping env before after none
    (entered (wrappingEnv env before after none) s (acquire s kreq kres) rw r)).1
  have h2 := (chain_wrapping_pair env before after none
    (entered (wrappingEnv env before after none) s (acquire s kreq kres) rw r)).2
  rw [ha] at h1 h2
  have hd : (entered (wrappingEnv env before after none) s (acquire s kreq kres) rw r).res.deferredFuncs
      = [] := by simp [entered, resetResponse]
  have hx : execute (wrappingEnv env before after none)
      (entered (wrappingEnv env before after none) s (acquire s kreq kres) rw r)
      = ((chain (wrappingEnv env before after none) s.a
          (entered (wrappingEnv env before after none) s (acquire s kreq kres) rw r)).2, []) := by
    simp only [execute, ha, h1]
  simp only [server.ServeHTTP, hx, cleanup, h2, hd, List.length_nil, runDeferred]
  exact ⟨trivial, rfl⟩

/-- C1: the handler that `ServeHTTP` builds and runs is
`p1(p2(...pn(R)...))` for the pregases `[p1..pn]` of the engine, where `R`
routes and then runs `g1(g2(...gm(H)...))` for the gases `[g1..gm]` and the
routed handler `H`; and when every layer wraps its call to `next` (and leaves
the lists alone) the log reads enter `p1..pn`, enter `g1..gm`, `H`, leave
`gm..g1`, leave `pn..p1`, the error being the one `H` returned; that log is
what an exchange of such layers leaves when `H` returns `nil`. -/
theorem ServeHTTP_chain_is_nested (env : Env) (w : World) :
    chain env w.a = nest env.gasOf w.a.Pregases (gasStage env) ∧
    (∀ v : World, gasStage env v
      = nest env.gasOf (env.route v).2.a.Gases (env.route v).1 (env.route v).2) ∧
    (∀ result : Option Error,
      (chain (wrappingEnv env (fun _ => id) (fun _ => id) result) w.a w).1 = result ∧
      (chain (wrappingEnv env (fun _ => id) (fun _ => id) result) w.a w).2.log
        = w.log ++ w.a.Pregases.map Event.enter ++ w.a.Gases.map Event.enter
            ++ [Event.handled]
            ++ w.a.Gases.reverse.map Event.leave
            ++ w.a.Pregases.reverse.map Event.leave) ∧
    (∀ (s : server) (kreq kres rw : Nat) (r : HTTPRequest),
      (server.ServeHTTP (wrappingEnv env (fun _ => id) (fun _ => id) none) s kreq kres rw r).s.map
          (fun t => t.log)
        = some (s.log ++ s.a.Pregases.map Event.enter ++ s.a.Gases.map Event.enter
            ++ [Event.handled]
            ++ s.a.Gases.reverse.map Event.leave
            ++ s.a.Pregases.reverse.map Event.leave)) := by
  refine ⟨chain_eq env w.a, gasStage_eq env, ?_, ?_⟩
  · intro result
    have h := chain_wrapping env (fun _ => id) (fun _ => id) result w
    rw [foldl_id_air] at h
    exact h
  · intro s kreq kres rw r
    rw [(ServeHTTP_wrapping env (fun _ => id) (fun _ => id) s kreq kres rw r).2]
    have h := (chain_wrapping env (fun _ => id) (fun _ => id) none
      (entered (wrappingEnv env (fun _ => id) (fun _ => id) none) s
        (acquire s kreq kres) rw r)).2
    rw [foldl_id_air] at h
    exact congrArg some h

/-- C10, the claim at a concrete exchange, refuted: the engine has the one
pregas `1` and no gas when the chain is built; pregas `1` registers gas `7`
before it calls `next`, and gas `7` runs for this very exchange. -/
theorem ServeHTTP_late_gas_runs :
    lateGasServer.a.Pregases ++ lateGasServer.a.Gases = [1] ∧
    ((lateGasServer.ServeHTTP lateGasEnv 0 0 0 plainRequest).s.map (fun s => s.log))
      = some [Event.enter 1, Event.enter 7, Event.handled, Event.leave 7, Event.leave 1] ∧
    ((lateGasServer.ServeHTTP lateGasEnv 0 0 0 plainRequest).s.map
        (fun s => layersEntered s.log))
      ≠ some (lateGasServer.a.Pregases ++ lateGasServer.a.Gases) := by
  decide

/-- C10, amended: for layers that wrap their call to `next` and change the
engine (its pregas and gas lists included) at will before and after that call,
the layers that run for the exchange are the pregases of the list as it stood
when the chain was built, followed by the gases of the list as it stands when
the innermost pregas calls `next`; changes made later, and every change to the
pregas list, leave the exchange in flight as it is, and the chain does not
depend on the gas list the engine has when the chain is built. -/
theorem ServeHTTP_lists_read (env : Env) (before after : Nat → Air → Air)
    (result : Option Error) (w : World) :
    layersEntered (chain (wrappingEnv env before after result) w.a w).2.log
      = layersEntered w.log ++ w.a.Pregases
          ++ (w.a.Pregases.foldl (fun a p => before p a) w.a).Gases ∧
    (chain (wrappingEnv env before after result) w.a w).2.log
      = w.log ++ w.a.Pregases.map Event.enter
          ++ (w.a.Pregases.foldl (fun a p => before p a) w.a).Gases.map Event.enter
          ++ [Event.handled]
          ++ (w.a.Pregases.foldl (fun a p => before p a) w.a).Gases.reverse.map Event.leave
          ++ w.a.Pregases.reverse.map Event.leave ∧
    (∀ gs : List Nat, chain env { w.a with Gases := gs } = chain env w.a) := by
  have h := (chain_wrapping env before after result w).2
  refine ⟨?_, h, fun _ => rfl⟩
  rw [h]
  simp only [layersEntered_append, layersEntered_enter, layersEntered_leave]
  simp [layersEntered]


/-! ## serve -/

theorem serve_transport (p : Platform) (s : server)
    (haddr : (SplitHostPort s.a.Address).err = none) :
    (server.serve p s).transport
      = some (if s.a.TLSCertFile ≠ "" ∧ s.a.TLSKeyFile ≠ "" then Transport.staticTLS
              else if s.a.DebugMode = false ∧ s.a.ACMEEnabled = true then Transport.acme
              else Transport.h2c) := by
  simp only [server.serve, haddr]
  split
  · split <;> rfl
  · split <;> rfl

theorem serve_transport_none (p : Platform) (s : server)
    (haddr : (SplitHostPort s.a.Address).err ≠ none) :
    (server.serve p s).transport = none ∧ (server.serve p s).a = s.a := by
  simp only [server.serve]
  split
  · exact ⟨rfl, rfl⟩
  · contradiction

/-- C5, the claim at a concrete configuration, refuted: ACME is enabled and
HTTPS enforcement is configured off, in debug mode; `serve` takes the
cleartext path and the flag is still off. -/
theorem serve_acme_enabled_not_enforced :
    acmeDebugAir.ACMEEnabled = true ∧
    (server.serve okPlatform (freshServer acmeDebugAir)).transport = some Transport.h2c ∧
    (server.serve okPlatform (freshServer acmeDebugAir)).a.HTTPSEnforced = false := by
  decide

/-- C5, amended: `serve` takes the ACME path exactly when the address parses,
the certificate and key paths are not both set, debug mode is off and ACME is
enabled; on that path the HTTPS-enforcement flag is true whatever it was
configured with, and on every other path it keeps its configured value. -/
theorem serve_acme_enforces (p : Platform) (s : server) :
    ((server.serve p s).transport = some Transport.acme ↔
      ((SplitHostPort s.a.Address).err = none ∧ ¬ (s.a.TLSCertFile ≠ "" ∧ s.a.TLSKeyFile ≠ "") ∧
        s.a.DebugMode = false ∧ s.a.ACMEEnabled = true)) ∧
    (server.serve p s).a.HTTPSEnforced
      = (if (server.serve p s).transport = some Transport.acme then true
         else s.a.HTTPSEnforced) := by
  cases haddr : (SplitHostPort s.a.Address).err with
  | some e =>
    have hne : (SplitHostPort s.a.Address).err ≠ none := by simp [haddr]
    have h := serve_transport_none p s hne
    simp [h.1, h.2]
  | none =>
    have ht := serve_transport p s haddr
    by_cases hc : s.a.TLSCertFile ≠ "" ∧ s.a.TLSKeyFile ≠ ""
    · rw [ht]
      refine ⟨by simp [hc], ?_⟩
      simp only [server.serve, haddr, if_pos hc]
      split <;> simp
    · by_cases hd : s.a.DebugMode = false ∧ s.a.ACMEEnabled = true
      · rw [ht]
        refine ⟨by simp [hc, hd], ?_⟩
        simp [server.serve, haddr, hc, hd]
      · rw [ht]
        refine ⟨by simp [hc, hd], ?_⟩
        simp [server.serve, haddr, hc, hd]

/-- C6, the code at the failing inputs: for the `Host` header `[::1]:8080` the
enforcement handler that `serve` installs redirects to `https://::1:443/...`,
the brackets of the host lost, and for `:8080` it keeps the port of the
header; a named host is redirected as the claim says. -/
theorem hh_host_not_port_stripped :
    (server.serve okPlatform (freshServer enforcedAir)).started
      = Started.ServeTLS "localhost:443" HTTPHandler.engine
          (some ("localhost:80", HTTPHandler.enforce "443")) ∧
    hh "443" ipv6Request = { url := "https://::1:443/x?y=1", code := 301 } ∧
    hh "443" emptyHostRequest = { url := "https://:8080:443/x?y=1", code := 301 } ∧
    hh "443" namedHostRequest = { url := "https://example.com:443/x?y=1", code := 301 } := by
  decide

/-- C7, the claim at a concrete configuration, refuted: no certificate, ACME
disabled, debug mode off; `serve` takes the cleartext path although it does
not run in debug mode. -/
theorem serve_cleartext_without_debug :
    plainAir.DebugMode = false ∧
    (server.serve okPlatform (freshServer plainAir)).transport = some Transport.h2c := by
  decide

/-- C7, amended: for every configuration whose address parses `serve` takes
exactly one of three paths: static TLS if and only if both the certificate and
the key path are non-empty; otherwise ACME if and only if debug mode is off and
ACME is enabled; otherwise, in debug mode or not, cleartext HTTP with h2c,
which sets no TLS configuration and returns from `Serve` (or with the
listener's error) directly. -/
theorem serve_three_paths (p : Platform) (s : server)
    (haddr : (SplitHostPort s.a.Address).err = none) :
    ((server.serve p s).transport = some Transport.staticTLS ↔
      (s.a.TLSCertFile ≠ "" ∧ s.a.TLSKeyFile ≠ "")) ∧
    ((server.serve p s).transport = some Transport.acme ↔
      (¬ (s.a.TLSCertFile ≠ "" ∧ s.a.TLSKeyFile ≠ "") ∧
        (s.a.DebugMode = false ∧ s.a.ACMEEnabled = true))) ∧
    ((server.serve p s).transport = some Transport.h2c ↔
      (¬ (s.a.TLSCertFile ≠ "" ∧ s.a.TLSKeyFile ≠ "") ∧
        ¬ (s.a.DebugMode = false ∧ s.a.ACMEEnabled = true))) ∧
    ((server.serve p s).transport = some Transport.h2c →
      (server.serve p s).TLSConfig = none ∧
      (server.serve p s).a = s.a ∧
      (server.serve p s).started
        = (match p.listen ((SplitHostPort s.a.Address).host ++ ":" ++ (SplitHostPort s.a.Address).port) with
           | some err => Started.failed err
           | none =>
             Started.Serve ((SplitHostPort s.a.Address).host ++ ":" ++ (SplitHostPort s.a.Address).port)
               (HTTPHandler.h2c HTTPHandler.engine))) := by
  have ht := serve_transport p s haddr
  by_cases hc : s.a.TLSCertFile ≠ "" ∧ s.a.TLSKeyFile ≠ ""
  · rw [ht]; simp [hc]
  · by_cases hd : s.a.DebugMode = false ∧ s.a.ACMEEnabled = true
    · rw [ht]; simp [hc, hd]
    · rw [ht]
      refine ⟨by simp [hc, hd], by simp [hc, hd], by simp [hc, hd], ?_⟩
      intro _
      simp [server.serve, haddr, hc, hd]

/-- Witness of C7 amended: the engine `plainAir` (address `localhost:443`, no
certificate, ACME off, debug off) is served in cleartext. -/
theorem serve_three_paths_witness :
    (SplitHostPort plainAir.Address).err = none ∧
    (server.serve okPlatform (freshServer plainAir)).transport = some Transport.h2c ∧
    (server.serve okPlatform (freshServer plainAir)).TLSConfig = none ∧
    (server.serve okPlatform (freshServer plainAir)).started
      = Started.Serve "localhost:443" (HTTPHandler.h2c HTTPHandler.engine) :=
  ⟨by decide, by decide,
   ((serve_three_paths okPlatform (freshServer plainAir) (by decide)).2.2.2 (by decide)).1,
   (((serve_three_paths okPlatform (freshServer plainAir) (by decide)).2.2.2 (by decide)).2.2).trans
     (by decide)⟩


/-! ## The enforcement handler on named hosts -/

theorem indexByte_none (c : Char) : ∀ s : List Char, c ∉ s → indexByte s c = none := by
  intro s
  induction s with
  | nil => intro _; rfl
  | cons x rest ih =>
    intro h
    have hx : x ≠ c := fun e => h (by simp [e])
    have hr : c ∉ rest := fun e => h (by simp [e])
    simp [indexByte, hx, ih hr]

theorem lastIndexByte_none (c : Char) : ∀ s : List Char, c ∉ s → lastIndexByte s c = none := by
  intro s
  induction s with
  | nil => intro _; rfl
  | cons x rest ih =>
    intro h
    have hx : x ≠ c := fun e => h (by simp [e])
    have hr : c ∉ rest := fun e => h (by simp [e])
    simp [lastIndexByte, hx, ih hr]

theorem lastIndexByte_sep (c : Char) (q : List Char) (hq : c ∉ q) :
    ∀ n : List Char, lastIndexByte (n ++ c :: q) c = some n.length := by
  intro n
  induction n with
  | nil => simp [lastIndexByte, lastIndexByte_none c q hq]
  | cons x rest ih => simp [lastIndexByte, ih]

/-- `net.SplitHostPort` on `host:port` with a host and a port free of colons
and brackets. -/
theorem SplitHostPort_named (n q : String)
    (hn : ':' ∉ n.data ∧ '[' ∉ n.data ∧ ']' ∉ n.data)
    (hq : ':' ∉ q.data ∧ '[' ∉ q.data ∧ ']' ∉ q.data) :
    SplitHostPort (n ++ ":" ++ q) = { host := n, port := q, err := none } := by
  have hdata : (n ++ ":" ++ q).data = n.data ++ ':' :: q.data := by
    simp [String.data_append]
  have hlast := lastIndexByte_sep ':' q.data hq.1 n.data
  have hhead : (n.data ++ ':' :: q.data).head? ≠ some '[' := by
    cases hnd : n.data with
    | nil => simp
    | cons x rest =>
      have : x ≠ '[' := fun e => hn.2.1 (by simp [hnd, e])
      simp [this]
  have hopen : '[' ∉ n.data ++ ':' :: q.data := by
    simp [hn.2.1, hq.2.1]
  have hclose : ']' ∉ n.data ++ ':' :: q.data := by
    simp [hn.2.2, hq.2.2]
  have hdrop : (n.data ++ ':' :: q.data).drop (n.data.length + 1) = q.data := by
    rw [show n.data ++ ':' :: q.data = (n.data ++ [':']) ++ q.data by simp]
    exact List.drop_left' (by simp)
  have htake : (n.data ++ ':' :: q.data).take n.data.length = n.data :=
    List.take_left' rfl
  simp only [SplitHostPort, hdata, hlast, if_neg hhead, htake, hdrop,
    indexByte_none ':' n.data hn.1, indexByte_none _ _ hopen, indexByte_none _ _ hclose,
    Option.isSome_none, Bool.false_eq_true, if_false]

/-- The enforcement handler on a `Host` header `name:port` whose name is not
empty and, like its port, free of colons and brackets: the redirect goes to
the name, the port of the engine's address and the unchanged request URI. -/
theorem hh_named_host (p : String) (n q : String) (r : HTTPRequest)
    (hn : ':' ∉ n.data ∧ '[' ∉ n.data ∧ ']' ∉ n.data)
    (hq : ':' ∉ q.data ∧ '[' ∉ q.data ∧ ']' ∉ q.data)
    (hne : n ≠ "") (hr : r.Host = n ++ ":" ++ q) :
    hh p r = { url := "https://" ++ n ++ ":" ++ p ++ r.RequestURI, code := 301 } := by
  simp only [hh, hr, SplitHostPort_named n q hn hq, if_neg hne]
  simp only [String.append_assoc]

/-- The enforcement handler on a `Host` header without a colon: the header is
the host. -/
theorem hh_no_port (p : String) (r : HTTPRequest) (hr : ':' ∉ r.Host.data) :
    hh p r = { url := "https://" ++ r.Host ++ ":" ++ p ++ r.RequestURI, code := 301 } := by
  have hs : SplitHostPort r.Host = addrErr "missing port in address" := by
    simp [SplitHostPort, lastIndexByte_none ':' _ hr]
  simp only [hh, hs, addrErr, if_true, String.append_assoc]


/-! ## i18n -/

theorem GoMap.get_index {V : Type} (m : GoMap (GoMap V)) (k key : String) :
    GoMap.get (GoMap.index m k) key = (GoMap.get m k).bind (fun l => GoMap.get l key) := by
  simp only [GoMap.index]
  cases GoMap.get m k with
  | none => rfl
  | some l => rfl

/-- C9: `localize` installs a resolver, and called right after, for any key, it
returns the matched locale's string when that locale defines the key,
otherwise the base locale's string when the base locale defines it, otherwise
the key; in the scenario (`en` and `fr`, base `en`, `Accept-Language: fr`)
`hi` resolves to `Bonjour` and the unknown key `bye` to itself. -/
theorem localize_resolves (e : Locale) (i : i18n) (r : Request) (a : Air) (key : String) :
    (i18n.localize e i r).2.localizedString.map
        (fun f => f.call (i18n.localize e i r).1 a key)
      = some (resolveSpec (i18n.localize e i r).1.locales a.LocaleBase
          (i18n.matched e (i18n.localize e i r).1 r) key) ∧
    (i18n.localize firstSupported scenarioI18n frenchRequest).2.localizedString.map
        (fun f => (f.call (i18n.localize firstSupported scenarioI18n frenchRequest).1 plainAir "hi",
          f.call (i18n.localize firstSupported scenarioI18n frenchRequest).1 plainAir "bye"))
      = some ("Bonjour", "bye") := by
  refine ⟨?_, by decide⟩
  simp only [i18n.localize, Option.map_some', LocalizedString.call, resolveSpec,
    GoMap.get_index]

end air

namespace gases

/-! ## The JWT gas -/

/-- The gas that `JWT` builds for a key: a header the extractor refuses gives
the 400 error, a token the verifier refuses or finds invalid gives the 401
error, both without a call of `next`; a verified token is stored under `user`
and the result is that of `next`. -/
theorem JWT_gas (parse : Parse) (key : List Nat) (next : HandlerFunc) (c : Context) :
    (JWT parse (some key)).map (fun gas => gas next c)
      = some (match jwtFromHeader "Authorization" c with
          | (_, some err) => (some (air.Error.http 400 err), c)
          | (auth, none) =>
            match parse auth "HS256" key with
            | Parsed.ok token =>
              if token.Valid then next (c.SetValue "user" token)
              else (some (air.Error.http 401 "Unauthorized"), c)
            | Parsed.failed _ => (some (air.Error.http 401 "Unauthorized"), c)) := by
  have hs : Split "header:Authorization" = ["header", "Authorization"] := by decide
  simp [JWT, JWTWithConfig, JWTConfig.fill, DefaultJWTConfig, defaultSkipper, hs,
    NewHTTPError, ErrUnauthorized]

/-- C8, the code at the failing input: for the header `BearerXabc`, which is
not of the form `Bearer <token>`, the extractor yields the token `abc` and no
error; the gas built by `JWT` then calls `next` with the token stored under
`user` when the verifier accepts `abc`, and returns the 401 error when it
rejects it; in neither case the 400 error. -/
theorem JWT_unseparated_bearer_extracted :
    jwtFromHeader "Authorization" unseparated = ("abc", none) ∧
    (JWT acceptAll (some [1])).map (fun gas => gas passNext unseparated)
      = some (none, unseparated.SetValue "user" { Raw := "abc", Valid := true }) ∧
    (JWT rejectAll (some [1])).map (fun gas => gas passNext unseparated)
      = some (some (air.Error.http 401 "Unauthorized"), unseparated) := by
  decide

end gases
